import Mathlib

/-!
Verification of the synthetic CDN data generator
(src/synthetic_cdn/generator.py) against its specification.

The generator is embedded shallowly: numpy arrays of floats become
functions `ℕ → ℚ`, the process-wide `np.random` module state becomes an
explicit state value threaded through the call, and the distribution
sampling routines of numpy (`lognormal`, `choice`, `uniform`) — whose
exact floating-point outputs are platform/libm dependent — are abstracted
as a `Sampler` bundle of draw functions.  Theorems that need facts about
the supports of the distributions (lognormal draws are strictly positive,
uniform draws lie in `[low, high)`, `choice` without replacement returns
distinct in-range indices) take those facts as hypotheses on the sampler;
they are the documented behaviour of the numpy routines.
-/

namespace SyntheticCDN

/-- State of the process-wide `np.random` module: a seed together with a
position in the pseudo-random stream.  The concrete representation is
irrelevant to every theorem below; what matters is that it is threaded
explicitly, mirroring numpy's single global generator object. -/
abbrev RState : Type := ℕ × ℕ

/-- Embedding of `np.random.seed(seed)`: the global state is replaced
wholesale by a state deterministically derived from the seed. -/
def npSeed (seed : ℕ) : RState := (seed, 0)

/-- The numpy sampling routines used by the generator, abstracted as pure
draw functions on the explicit random state.  Each returns the drawn
array (as a total function; only indices below the requested size are
ever read) together with the advanced state. -/
structure Sampler where
  lognormal : ℚ → ℚ → ℕ → RState → (ℕ → ℚ) × RState
  choice : ℕ → ℕ → RState → List ℕ × RState
  uniform : ℚ → ℚ → ℕ → RState → (ℕ → ℚ) × RState

-- ============================================================
-- Configuration constants, from the top of generator.py
-- ============================================================

/-- RANDOM_SEED = 42 -/
def RANDOM_SEED : ℕ := 42

/-- N_SAMPLES = 500 -/
def N_SAMPLES : ℕ := 500

/-- RTT_MEAN_LOG = np.log(30); decimal rendering of the IEEE-754 double.
The value is only ever passed opaquely to the sampler. -/
def RTT_MEAN_LOG : ℚ := 3.4011973816621555

/-- RTT_SIGMA_LOG = 0.5 -/
def RTT_SIGMA_LOG : ℚ := 0.5

/-- DELAY_MEAN_LOG = np.log(20); decimal rendering of the IEEE-754 double. -/
def DELAY_MEAN_LOG : ℚ := 2.995732273553991

/-- DELAY_SIGMA_LOG = 0.8 -/
def DELAY_SIGMA_LOG : ℚ := 0.8

/-- LOSS_PROBABILITY = 0.15 -/
def LOSS_PROBABILITY : ℚ := 0.15

/-- LOSS_MIN = 0.001 -/
def LOSS_MIN : ℚ := 0.001

/-- LOSS_MAX = 0.02 -/
def LOSS_MAX : ℚ := 0.02

/-- THROUGHPUT_CONSTANT = 10000 -/
def THROUGHPUT_CONSTANT : ℚ := 10000

/-- LOSS_IMPACT_WEIGHT = 5000 -/
def LOSS_IMPACT_WEIGHT : ℚ := 5000

/-- `int(N_SAMPLES * LOSS_PROBABILITY)`, the size argument of
`np.random.choice`.  Python's `int()` truncates toward zero, which for
this positive value is the floor.  (In IEEE doubles `500 * 0.15` rounds
to exactly `75.0`, so the rational computation agrees with the float
one.) -/
def numLossy : ℕ := (⌊(N_SAMPLES : ℚ) * LOSS_PROBABILITY⌋).toNat

-- ============================================================
-- Fancy-index assignment
-- ============================================================

/-- Pointwise update of an array-as-function. -/
def writeAt (g : ℕ → ℚ) (i : ℕ) (v : ℚ) : ℕ → ℚ :=
  fun j => if j = i then v else g j

/-- Embedding of numpy fancy-index assignment `g[idx] = vals`: the `j`-th
listed index receives the `j`-th value, assignments performed left to
right (so on duplicate indices the later write wins, as in numpy). -/
def indexAssign : (ℕ → ℚ) → List ℕ → (ℕ → ℚ) → ℕ → ℕ → ℚ
  | g, [], _, _ => g
  | g, i :: rest, vals, j => indexAssign (writeAt g i (vals j)) rest vals (j + 1)

-- ============================================================
-- The generator
-- ============================================================

/-- One generated table: the four exported columns of the DataFrame,
as arrays-as-functions, plus the row count. -/
structure CDNData where
  nRows : ℕ
  RTT : ℕ → ℚ
  TTFB : ℕ → ℚ
  Loss : ℕ → ℚ
  Throughput : ℕ → ℚ

/-- Shallow embedding of `generate_synthetic_cdn_data()`.  The Python
function takes no parameters; here the abstract numpy sampler `S` (fixed
library code) and the pre-existing global random state `g0` are made
explicit.  The body mirrors the source line by line:

  * `np.random.seed(RANDOM_SEED)` — discards `g0`;
  * `rtt = np.random.lognormal(RTT_MEAN_LOG, RTT_SIGMA_LOG, N_SAMPLES)`;
  * `server_delay = np.random.lognormal(DELAY_MEAN_LOG, DELAY_SIGMA_LOG, N_SAMPLES)`;
  * `ttfb = rtt + server_delay`;
  * `lossy_indices = np.random.choice(N_SAMPLES, int(N_SAMPLES*LOSS_PROBABILITY), replace=False)`;
  * `loss[lossy_indices] = np.random.uniform(LOSS_MIN, LOSS_MAX, len(lossy_indices))`;
  * `total_cost = rtt + ttfb + loss * LOSS_IMPACT_WEIGHT`;
  * `base_throughput = THROUGHPUT_CONSTANT / total_cost`;
  * `noise = np.random.uniform(0.9, 1.1, N_SAMPLES)`;
  * `throughput = np.maximum(base_throughput * noise, 0.01)`.

The returned pair is the DataFrame together with the mutated global
random state. -/
def generate_synthetic_cdn_data (S : Sampler) (g0 : RState) : CDNData × RState :=
  let _ := g0
  let st := npSeed RANDOM_SEED
  let r := S.lognormal RTT_MEAN_LOG RTT_SIGMA_LOG N_SAMPLES st
  let rtt := r.1
  let d := S.lognormal DELAY_MEAN_LOG DELAY_SIGMA_LOG N_SAMPLES r.2
  let server_delay := d.1
  let ttfb := fun i => rtt i + server_delay i
  let c := S.choice N_SAMPLES numLossy d.2
  let lossy_indices := c.1
  let m := S.uniform LOSS_MIN LOSS_MAX lossy_indices.length c.2
  let loss := indexAssign (fun _ => 0) lossy_indices m.1 0
  let total_cost := fun i => rtt i + ttfb i + loss i * LOSS_IMPACT_WEIGHT
  let base_throughput := fun i => THROUGHPUT_CONSTANT / total_cost i
  let z := S.uniform 0.9 1.1 N_SAMPLES m.2
  let noise := z.1
  let throughput := fun i => max (base_throughput i * noise i) 0.01
  (⟨N_SAMPLES, rtt, ttfb, loss, throughput⟩, z.2)

/-- ConfigurationError: the failure type named by the specification.  The
generator source defines no such exception and raises nothing; the type
is declared here only so that the absence of this failure mode can be
stated. -/
inductive ConfigurationError : Type where
  | invalid : ConfigurationError

/-- Exception-monad semantics of `generate_synthetic_cdn_data`: the
function body contains no `raise` and no validation, so every run
returns `ok` unconditionally. -/
def generateE (S : Sampler) (g0 : RState) :
    Except ConfigurationError (CDNData × RState) :=
  Except.ok (generate_synthetic_cdn_data S g0)

-- ============================================================
-- The five draw stages, in the order they occur in the source
-- ============================================================

/-- Global state right after `np.random.seed(RANDOM_SEED)`. -/
def st0 : RState := npSeed RANDOM_SEED

/-- Stage 1: the RTT lognormal draw. -/
def rttStage (S : Sampler) : (ℕ → ℚ) × RState :=
  S.lognormal RTT_MEAN_LOG RTT_SIGMA_LOG N_SAMPLES st0

/-- Stage 2: the server-delay lognormal draw, from stage 1's state. -/
def delayStage (S : Sampler) : (ℕ → ℚ) × RState :=
  S.lognormal DELAY_MEAN_LOG DELAY_SIGMA_LOG N_SAMPLES (rttStage S).2

/-- Stage 3: the lossy-index selection, from stage 2's state. -/
def choiceStage (S : Sampler) : List ℕ × RState :=
  S.choice N_SAMPLES numLossy (delayStage S).2

/-- Stage 4: the loss-magnitude uniform draw, from stage 3's state. -/
def lossMagStage (S : Sampler) : (ℕ → ℚ) × RState :=
  S.uniform LOSS_MIN LOSS_MAX (choiceStage S).1.length (choiceStage S).2

/-- Stage 5: the throughput-noise uniform draw, from stage 4's state. -/
def noiseStage (S : Sampler) : (ℕ → ℚ) × RState :=
  S.uniform 0.9 1.1 N_SAMPLES (lossMagStage S).2

/-- The loss column, expressed through the stages. -/
def lossArr (S : Sampler) : ℕ → ℚ :=
  indexAssign (fun _ => 0) (choiceStage S).1 (lossMagStage S).1 0

-- ============================================================
-- Sampler well-formedness: documented numpy distribution supports
-- ============================================================

/-- Lognormal draws are strictly positive (the exponential of a normal
variate), for every parameterization, state and index. -/
def Sampler.LognormalPos (S : Sampler) : Prop :=
  ∀ m s n st i, 0 < (S.lognormal m s n st).1 i

/-- Uniform draws lie in the half-open interval `[low, high)` whenever
`low < high`, as documented for `np.random.uniform`. -/
def Sampler.UniformInRange (S : Sampler) : Prop :=
  ∀ lo hi n st i, lo < hi →
    lo ≤ (S.uniform lo hi n st).1 i ∧ (S.uniform lo hi n st).1 i < hi

/-- Selection without replacement returns exactly `k` distinct indices
below `n` whenever `k ≤ n`, as documented for
`np.random.choice(n, k, replace=False)`. -/
def Sampler.ChoiceValid (S : Sampler) : Prop :=
  ∀ n k st, k ≤ n →
    (S.choice n k st).1.length = k ∧ (S.choice n k st).1.Nodup ∧
      ∀ i ∈ (S.choice n k st).1, i < n

-- ============================================================
-- A concrete well-formed sampler, used to instantiate theorems
-- ============================================================

/-- A degenerate but well-formed sampler: every lognormal draw is `1`,
every uniform draw is the lower bound, `choice n k` returns
`[0, …, k-1]`; each call advances the stream position by the number of
scalars drawn. -/
def unitSampler : Sampler where
  lognormal := fun _ _ n st => (fun _ => 1, (st.1, st.2 + n))
  choice := fun _ k st => (List.range k, (st.1, st.2 + k))
  uniform := fun lo _ n st => (fun _ => lo, (st.1, st.2 + n))

theorem unitSampler_lognormalPos : unitSampler.LognormalPos := by
  intro m s n st i
  norm_num [unitSampler]

theorem unitSampler_uniformInRange : unitSampler.UniformInRange := by
  intro lo hi n st i h
  exact ⟨le_refl lo, h⟩

theorem unitSampler_choiceValid : unitSampler.ChoiceValid := by
  intro n k st hk
  refine ⟨List.length_range k, List.nodup_range k, ?_⟩
  intro i hi
  exact lt_of_lt_of_le (List.mem_range.mp hi) hk

-- ============================================================
-- Lemmas about fancy-index assignment
-- ============================================================

/-- An index not listed keeps its base value. -/
theorem indexAssign_not_mem (idx : List ℕ) (g vals : ℕ → ℚ) (j i : ℕ)
    (h : i ∉ idx) : indexAssign g idx vals j i = g i := by
  induction idx generalizing g j with
  | nil => rfl
  | cons a rest ih =>
    rw [List.mem_cons, not_or] at h
    rw [indexAssign, ih _ _ h.2]
    simp [writeAt, h.1]

/-- With distinct indices, the `k`-th listed index receives the `k`-th
value (offset by the running counter `j`). -/
theorem indexAssign_get :
    ∀ (idx : List ℕ) (g vals : ℕ → ℚ) (j : ℕ), idx.Nodup →
      ∀ (k : ℕ) (hk : k < idx.length),
        indexAssign g idx vals j (idx.get ⟨k, hk⟩) = vals (j + k)
  | [], _, _, _, _, k, hk => absurd hk (Nat.not_lt_zero k)
  | a :: rest, g, vals, j, hn, 0, _ => by
    rw [indexAssign]
    show indexAssign (writeAt g a (vals j)) rest vals (j + 1) a = vals (j + 0)
    rw [indexAssign_not_mem rest _ vals (j + 1) a (List.nodup_cons.mp hn).1]
    simp [writeAt]
  | a :: rest, g, vals, j, hn, k + 1, hk => by
    rw [indexAssign]
    show indexAssign (writeAt g a (vals j)) rest vals (j + 1)
        (rest.get ⟨k, Nat.lt_of_succ_lt_succ hk⟩) = vals (j + (k + 1))
    rw [indexAssign_get rest (writeAt g a (vals j)) vals (j + 1)
      (List.nodup_cons.mp hn).2 k (Nat.lt_of_succ_lt_succ hk)]
    ring_nf

-- ============================================================
-- Structural equations: the generator decomposed into its stages
-- ============================================================

theorem gen_RTT (S : Sampler) (g : RState) :
    (generate_synthetic_cdn_data S g).1.RTT = (rttStage S).1 := rfl

theorem gen_TTFB (S : Sampler) (g : RState) :
    (generate_synthetic_cdn_data S g).1.TTFB =
      fun i => (rttStage S).1 i + (delayStage S).1 i := rfl

theorem gen_Loss (S : Sampler) (g : RState) :
    (generate_synthetic_cdn_data S g).1.Loss = lossArr S := rfl

theorem gen_Throughput (S : Sampler) (g : RState) :
    (generate_synthetic_cdn_data S g).1.Throughput =
      fun i => max ((THROUGHPUT_CONSTANT /
        ((rttStage S).1 i + ((rttStage S).1 i + (delayStage S).1 i) +
          lossArr S i * LOSS_IMPACT_WEIGHT)) * (noiseStage S).1 i) 0.01 := rfl

theorem gen_state (S : Sampler) (g : RState) :
    (generate_synthetic_cdn_data S g).2 = (noiseStage S).2 := rfl

theorem gen_nRows (S : Sampler) (g : RState) :
    (generate_synthetic_cdn_data S g).1.nRows = N_SAMPLES := rfl

theorem numLossy_eq : numLossy = 75 := by
  norm_num [numLossy, N_SAMPLES, LOSS_PROBABILITY]
  rfl

theorem numLossy_le : numLossy ≤ N_SAMPLES := by
  rw [numLossy_eq]
  decide

-- ============================================================
-- Loss-column characterization (shared by several claims)
-- ============================================================

/-- An index not selected by the choice stage has loss exactly zero. -/
theorem lossArr_zero_of_not_mem (S : Sampler) (i : ℕ)
    (h : i ∉ (choiceStage S).1) : lossArr S i = 0 :=
  indexAssign_not_mem (choiceStage S).1 (fun _ => 0) (lossMagStage S).1 0 i h

/-- A selected index carries a uniform draw from `[LOSS_MIN, LOSS_MAX)`. -/
theorem lossArr_bounds_of_mem (S : Sampler)
    (hc : S.ChoiceValid) (hu : S.UniformInRange) (i : ℕ)
    (h : i ∈ (choiceStage S).1) :
    LOSS_MIN ≤ lossArr S i ∧ lossArr S i < LOSS_MAX := by
  obtain ⟨hlen, hnd, hlt⟩ := hc N_SAMPLES numLossy (delayStage S).2 numLossy_le
  obtain ⟨k, hk⟩ := List.mem_iff_get.mp h
  have hval := indexAssign_get (choiceStage S).1 (fun _ => 0)
    (lossMagStage S).1 0 hnd k.1 k.2
  have hres : lossArr S i = (lossMagStage S).1 (0 + k.1) := by
    rw [← hk]
    exact hval
  rw [hres]
  exact hu LOSS_MIN LOSS_MAX (choiceStage S).1.length (choiceStage S).2
    (0 + k.1) (by norm_num [LOSS_MIN, LOSS_MAX])

/-- Loss is nonzero exactly on the selected indices. -/
theorem lossArr_ne_zero_iff (S : Sampler)
    (hc : S.ChoiceValid) (hu : S.UniformInRange) (i : ℕ) :
    lossArr S i ≠ 0 ↔ i ∈ (choiceStage S).1 := by
  constructor
  · intro hne
    by_contra hmem
    exact hne (lossArr_zero_of_not_mem S i hmem)
  · intro hmem
    have hb := lossArr_bounds_of_mem S hc hu i hmem
    have : (0 : ℚ) < lossArr S i :=
      lt_of_lt_of_le (by norm_num [LOSS_MIN]) hb.1
    exact ne_of_gt this

-- ============================================================
-- Claim theorems
-- ============================================================

/-- C1.  Reproducibility: the generator re-seeds the random source from
the fixed module seed at entry, so its entire result — the table in
particular — is independent of the pre-existing global random state; two
invocations with the identical (fixed) configuration and seed return
exactly the same table. -/
theorem generate_reproducible (S : Sampler) (g0 g1 : RState) :
    generate_synthetic_cdn_data S g0 = generate_synthetic_cdn_data S g1 := rfl

/-- C2.  Structural invariant: for every generated sample, `ttfb` equals
`rtt` plus the server-delay draw exactly — it is computed as precisely
that sum. -/
theorem ttfb_exact_sum (S : Sampler) (g : RState) (i : ℕ)
    (_hi : i < N_SAMPLES) :
    (generate_synthetic_cdn_data S g).1.TTFB i =
      (generate_synthetic_cdn_data S g).1.RTT i + (delayStage S).1 i := rfl

/-- C2 witness. -/
theorem ttfb_exact_sum_witness :
    0 < N_SAMPLES ∧
      (generate_synthetic_cdn_data unitSampler (0, 0)).1.TTFB 0 =
        (generate_synthetic_cdn_data unitSampler (0, 0)).1.RTT 0 +
          (delayStage unitSampler).1 0 :=
  ⟨by decide, ttfb_exact_sum unitSampler (0, 0) 0 (by decide)⟩

/-- C3.  Loss field correctness: every sample's loss is either exactly 0
or lies in `[LOSS_MIN, LOSS_MAX]`; the nonzero-loss samples are exactly
the `floor(N_SAMPLES * LOSS_PROBABILITY) = 75` distinct indices chosen
without replacement, and every other sample has loss exactly 0. -/
theorem loss_field_correct (S : Sampler) (g : RState)
    (hc : S.ChoiceValid) (hu : S.UniformInRange) :
    (∀ i, i < N_SAMPLES →
        (generate_synthetic_cdn_data S g).1.Loss i = 0 ∨
          (LOSS_MIN ≤ (generate_synthetic_cdn_data S g).1.Loss i ∧
            (generate_synthetic_cdn_data S g).1.Loss i ≤ LOSS_MAX)) ∧
      (∀ i, (generate_synthetic_cdn_data S g).1.Loss i ≠ 0 ↔
        i ∈ (choiceStage S).1) ∧
      (choiceStage S).1.Nodup ∧
      (choiceStage S).1.length = numLossy ∧
      numLossy = 75 ∧
      ((Finset.range N_SAMPLES).filter
          (fun i => (generate_synthetic_cdn_data S g).1.Loss i ≠ 0)).card =
        numLossy := by
  obtain ⟨hlen, hnd, hlt⟩ := hc N_SAMPLES numLossy (delayStage S).2 numLossy_le
  have hnd1 : (choiceStage S).1.Nodup := hnd
  have hlen1 : (choiceStage S).1.length = numLossy := hlen
  have hlt1 : ∀ i ∈ (choiceStage S).1, i < N_SAMPLES := hlt
  refine ⟨?_, ?_, hnd1, hlen1, numLossy_eq, ?_⟩
  · intro i _
    simp only [gen_Loss]
    by_cases hmem : i ∈ (choiceStage S).1
    · right
      have hb := lossArr_bounds_of_mem S hc hu i hmem
      exact ⟨hb.1, le_of_lt hb.2⟩
    · left
      exact lossArr_zero_of_not_mem S i hmem
  · intro i
    simp only [gen_Loss]
    exact lossArr_ne_zero_iff S hc hu i
  · have hset : (Finset.range N_SAMPLES).filter
        (fun i => (generate_synthetic_cdn_data S g).1.Loss i ≠ 0) =
        (choiceStage S).1.toFinset := by
      ext i
      simp only [Finset.mem_filter, Finset.mem_range, List.mem_toFinset,
        gen_Loss]
      constructor
      · rintro ⟨_, h⟩
        exact (lossArr_ne_zero_iff S hc hu i).mp h
      · intro h
        exact ⟨hlt1 i h, (lossArr_ne_zero_iff S hc hu i).mpr h⟩
    rw [hset, List.card_toFinset, List.dedup_eq_self.mpr hnd1, hlen1]

/-- C3 witness. -/
theorem loss_field_correct_witness :
    (choiceStage unitSampler).1.Nodup ∧
      (choiceStage unitSampler).1.length = numLossy ∧ numLossy = 75 :=
  ⟨(loss_field_correct unitSampler (0, 0) unitSampler_choiceValid
      unitSampler_uniformInRange).2.2.1,
   (loss_field_correct unitSampler (0, 0) unitSampler_choiceValid
      unitSampler_uniformInRange).2.2.2.1,
   (loss_field_correct unitSampler (0, 0) unitSampler_choiceValid
      unitSampler_uniformInRange).2.2.2.2.1⟩

/-- C4.  Throughput derivation: every sample's throughput is the clamped
value of its noise draw times `THROUGHPUT_CONSTANT` divided by the cost
`rtt + ttfb + loss * LOSS_IMPACT_WEIGHT`, with the noise drawn uniformly
from the bounds `[0.9, 1.1)`. -/
theorem throughput_derivation (S : Sampler) (g : RState)
    (hu : S.UniformInRange) (i : ℕ) (_hi : i < N_SAMPLES) :
    (generate_synthetic_cdn_data S g).1.Throughput i =
      max ((noiseStage S).1 i * (THROUGHPUT_CONSTANT /
        ((generate_synthetic_cdn_data S g).1.RTT i +
          (generate_synthetic_cdn_data S g).1.TTFB i +
          (generate_synthetic_cdn_data S g).1.Loss i *
            LOSS_IMPACT_WEIGHT))) 0.01 ∧
      (0.9 : ℚ) ≤ (noiseStage S).1 i ∧ (noiseStage S).1 i < 1.1 := by
  refine ⟨?_, ?_⟩
  · simp only [gen_Throughput, gen_RTT, gen_TTFB, gen_Loss]
    rw [mul_comm]
  · exact hu 0.9 1.1 N_SAMPLES (lossMagStage S).2 i (by norm_num)

/-- C4 witness. -/
theorem throughput_derivation_witness :
    (generate_synthetic_cdn_data unitSampler (0, 0)).1.Throughput 0 =
      max ((noiseStage unitSampler).1 0 * (THROUGHPUT_CONSTANT /
        ((generate_synthetic_cdn_data unitSampler (0, 0)).1.RTT 0 +
          (generate_synthetic_cdn_data unitSampler (0, 0)).1.TTFB 0 +
          (generate_synthetic_cdn_data unitSampler (0, 0)).1.Loss 0 *
            LOSS_IMPACT_WEIGHT))) 0.01 ∧
      (0.9 : ℚ) ≤ (noiseStage unitSampler).1 0 ∧
        (noiseStage unitSampler).1 0 < 1.1 :=
  throughput_derivation unitSampler (0, 0) unitSampler_uniformInRange 0
    (by decide)

/-- C5.  Positivity: every sample has `rtt > 0`, `ttfb > 0` and
`throughput > 0`, and throughput is floored at the minimum positive
constant `0.01`, so every exported throughput is at least `0.01`. -/
theorem positivity_and_floor (S : Sampler) (g : RState)
    (hl : S.LognormalPos) (i : ℕ) (_hi : i < N_SAMPLES) :
    0 < (generate_synthetic_cdn_data S g).1.RTT i ∧
      0 < (generate_synthetic_cdn_data S g).1.TTFB i ∧
      0 < (generate_synthetic_cdn_data S g).1.Throughput i ∧
      (0.01 : ℚ) ≤ (generate_synthetic_cdn_data S g).1.Throughput i := by
  have hr : 0 < (rttStage S).1 i :=
    hl RTT_MEAN_LOG RTT_SIGMA_LOG N_SAMPLES st0 i
  have hd : 0 < (delayStage S).1 i :=
    hl DELAY_MEAN_LOG DELAY_SIGMA_LOG N_SAMPLES (rttStage S).2 i
  have hfloor : (0.01 : ℚ) ≤ (generate_synthetic_cdn_data S g).1.Throughput i := by
    simp only [gen_Throughput]
    exact le_max_right _ _
  refine ⟨hr, ?_, ?_, hfloor⟩
  · simp only [gen_TTFB]
    exact add_pos hr hd
  · exact lt_of_lt_of_le (by norm_num) hfloor

/-- C5 witness. -/
theorem positivity_and_floor_witness :
    0 < (generate_synthetic_cdn_data unitSampler (0, 0)).1.RTT 0 ∧
      0 < (generate_synthetic_cdn_data unitSampler (0, 0)).1.TTFB 0 ∧
      0 < (generate_synthetic_cdn_data unitSampler (0, 0)).1.Throughput 0 ∧
      (0.01 : ℚ) ≤ (generate_synthetic_cdn_data unitSampler (0, 0)).1.Throughput 0 :=
  positivity_and_floor unitSampler (0, 0) unitSampler_lognormalPos 0
    (by decide)

/-- C6 counterexample: the generator has no `ConfigurationError` failure
mode at all — no sampler and no prior global state can make it return an
error, because the source performs no validation and raises nothing. -/
theorem no_configuration_error :
    ¬ ∃ (S : Sampler) (g : RState) (e : ConfigurationError),
        generateE S g = Except.error e := by
  rintro ⟨S, g, e, h⟩
  exact Except.noConfusion h

/-- C6 amended: `generate_synthetic_cdn_data` takes no configuration
parameters and performs no validation; it never fails, unconditionally
returning the complete `N_SAMPLES`-row table. -/
theorem generate_total_no_validation (S : Sampler) (g : RState) :
    generateE S g = Except.ok (generate_synthetic_cdn_data S g) ∧
      (generate_synthetic_cdn_data S g).1.nRows = N_SAMPLES :=
  ⟨rfl, rfl⟩

/-- C7.  Fixed draw order: one generation run seeds the source from the
fixed module seed and then consumes draws in the fixed order RTT,
server delay, lossy-index selection, loss magnitudes, noise — each stage
starting from the state the previous stage returned (as spelled out by
the chained stage definitions). -/
theorem fixed_draw_order (S : Sampler) (g : RState) :
    generate_synthetic_cdn_data S g =
      (⟨N_SAMPLES, (rttStage S).1,
        fun i => (rttStage S).1 i + (delayStage S).1 i,
        lossArr S,
        fun i => max ((THROUGHPUT_CONSTANT /
          ((rttStage S).1 i + ((rttStage S).1 i + (delayStage S).1 i) +
            lossArr S i * LOSS_IMPACT_WEIGHT)) * (noiseStage S).1 i)
          0.01⟩,
       (noiseStage S).2) := rfl

/-- C8 counterexample: the generator does not own a private random
source — it works on the process-wide state, which it overwrites: called
with prior global state `(7, 3)`, it leaves the global state different
from `(7, 3)` (a call owning an explicit private source would leave the
module-level state untouched). -/
theorem global_state_clobbered :
    (generate_synthetic_cdn_data unitSampler (7, 3)).2 ≠ (7, 3) := by
  decide

/-- C8 amended: each call re-seeds and then uses the process-wide
module-level random state; the call's entire result is therefore
independent of the prior global state, and the global state it leaves
behind is the deterministic post-draw state — the source is global and
mutated, not an explicit per-call object. -/
theorem global_state_overwrite_semantics (S : Sampler) (g g1 : RState) :
    generate_synthetic_cdn_data S g = generate_synthetic_cdn_data S g1 ∧
      (generate_synthetic_cdn_data S g).2 = (noiseStage S).2 :=
  ⟨rfl, rfl⟩

/-- C10.  Implicit invariant: every sample's `ttfb` is strictly greater
than its `rtt`, because the added server delay is a log-normal draw and
hence strictly positive. -/
theorem ttfb_gt_rtt (S : Sampler) (g : RState) (hl : S.LognormalPos)
    (i : ℕ) (_hi : i < N_SAMPLES) :
    (generate_synthetic_cdn_data S g).1.RTT i <
      (generate_synthetic_cdn_data S g).1.TTFB i := by
  have hd : 0 < (delayStage S).1 i :=
    hl DELAY_MEAN_LOG DELAY_SIGMA_LOG N_SAMPLES (rttStage S).2 i
  simp only [gen_TTFB, gen_RTT]
  exact lt_add_of_pos_right _ hd

/-- C10 witness. -/
theorem ttfb_gt_rtt_witness :
    (generate_synthetic_cdn_data unitSampler (0, 0)).1.RTT 0 <
      (generate_synthetic_cdn_data unitSampler (0, 0)).1.TTFB 0 :=
  ttfb_gt_rtt unitSampler (0, 0) unitSampler_lognormalPos 0 (by decide)

end SyntheticCDN
